import Mathlib

/-!
Shallow embedding of the codeghost pattern-mining engine:
the pattern store (`src/engine/patternStore.ts`), the pattern extractor
(`src/engine/patternExtractor.ts`), the risk scorer (`src/engine/riskScorer.ts`)
and the line scanner (`src/engine/codeScanner.ts`).

Strings are manipulated through their character lists so that every
operation computes by kernel reduction.  JavaScript string methods
(`includes`, `startsWith`, `trim`, `split`, …) are modelled by
corresponding functions on `List Char`.  The handful of fixed regular
expressions used by the detector heuristics are modelled by dedicated
matching functions that implement the leftmost-match semantics of the
JavaScript regex engine for those particular patterns (for each of them,
greedy repetition with the following literal admits no useful
backtracking, so a deterministic scan over start positions is exact).
-/

/-! ## JavaScript string primitives -/

/-- Word character class of the JavaScript regex token `\w`: `[A-Za-z0-9_]`. -/
def isWordChar (c : Char) : Bool :=
  c.isAlpha || c.isDigit || c = '_'

/-- Whitespace as matched by the JavaScript regex token `\s` and by
`String.prototype.trim` (restricted to the ASCII whitespace actually
occurring in source lines). -/
def isSpaceChar (c : Char) : Bool :=
  c = ' ' || c = '\t' || c = '\n' || c = '\r' || c.toNat = 11 || c.toNat = 12

/-- Characters of a string with leading and trailing whitespace removed. -/
def trimChars (l : List Char) : List Char :=
  ((l.dropWhile isSpaceChar).reverse.dropWhile isSpaceChar).reverse

/-- JavaScript `s.trim()`. -/
def jsTrim (s : String) : String :=
  String.mk (trimChars s.toList)

/-- Substring test on character lists (true iff `sub` occurs contiguously in `l`). -/
def isSubstrList (sub : List Char) : List Char → Bool
  | [] => sub.isPrefixOf []
  | c :: cs => sub.isPrefixOf (c :: cs) || isSubstrList sub cs

/-- JavaScript `s.includes(sub)`. -/
def jsIncludes (s sub : String) : Bool :=
  isSubstrList sub.toList s.toList

/-- JavaScript `s.startsWith(pre)`. -/
def jsStartsWith (s pre : String) : Bool :=
  pre.toList.isPrefixOf s.toList

/-- JavaScript `s.substring(n)` / `s.slice(n)` for a character count `n`. -/
def strDrop (s : String) (n : Nat) : String :=
  String.mk (s.toList.drop n)

/-- Split a character list at every separator selected by `p`
(JavaScript `s.split(regexOfSingleChars)`); separators are dropped and
empty segments are kept, as in JavaScript. -/
def splitOnPred (p : Char → Bool) : List Char → List (List Char)
  | [] => [[]]
  | c :: cs =>
    let r := splitOnPred p cs
    if p c then [] :: r
    else
      match r with
      | [] => [[c]]
      | h :: t => (c :: h) :: t

/-- JavaScript `s.split('\n')`. -/
def jsSplitLines (s : String) : List String :=
  (splitOnPred (fun c => c = '\n') s.toList).map String.mk

/-- Lower-casing of a character list (JavaScript `toLowerCase` on ASCII data). -/
def jsToLowerList (l : List Char) : List Char :=
  l.map Char.toLower

/-- JavaScript `filePath.split(/[\\/]/).pop() || ''`: the substring after the
last slash or backslash, or the empty string for a trailing separator. -/
def jsBasename (fp : String) : String :=
  String.mk ((splitOnPred (fun c => c = '/' || c = '\\') fp.toList).getLastD [])

/-- Sum of the UTF-16 char codes of a string (ASCII data), as in
`s.split('').reduce((acc, char) => acc + char.charCodeAt(0), 0)`. -/
def charCodeSum (s : String) : Nat :=
  s.toList.foldl (fun a c => a + c.toNat) 0

/-- JavaScript `Math.round`: round to nearest, ties toward positive infinity. -/
def jsRound (q : ℚ) : ℤ :=
  ⌊q + 1/2⌋

/-! ## Data model (`src/types.ts`) -/

structure CommitReference where
  sha : String
  file : String
  line : ℤ
  message : String
deriving DecidableEq

structure BugPattern where
  id : String
  language : String
  regex : String
  category : String
  risk_base : ℤ
  commits : List CommitReference
  occurrence_count : ℤ
  buggyExample : String
  fixedExample : String
deriving DecidableEq

structure BugMemory where
  version : ℤ
  generated_at : String
  last_scanned_sha : Option String
  patterns : List BugPattern
deriving DecidableEq

structure ScanResult where
  lineNumber : ℤ
  riskScore : ℤ
  patternId : String
  commitShas : List String
  shortReason : String
  category : String
deriving DecidableEq

structure GitFile where
  filename : String
  patch : Option String
deriving DecidableEq

structure GitCommit where
  sha : String
  message : String
  files : Option (List GitFile)
deriving DecidableEq

/-! ## Pattern store (`PatternStore`, src/engine/patternStore.ts) -/

/-- Identity key used by `addPatterns`: equal `regex` and equal `category`. -/
def sameKey (q p : BugPattern) : Bool :=
  q.regex == p.regex && q.category == p.category

/-- Merged entry produced by `addPatterns` on a key hit: occurrence counts
add, commit lists concatenate (no deduplication), and the risk base becomes
`Math.round((existing.risk_base + incoming.risk_base) / 2)`. -/
def mergePatterns (q p : BugPattern) : BugPattern :=
  { q with
    occurrence_count := q.occurrence_count + p.occurrence_count
    commits := q.commits ++ p.commits
    risk_base := jsRound (((q.risk_base + p.risk_base : ℤ) : ℚ) / 2) }

/-- Processing of one incoming pattern by `addPatterns`: the first stored
pattern with the same key (the `findIndex` hit) is replaced by the merged
entry; without a hit the incoming pattern is appended. -/
def mergeInto : List BugPattern → BugPattern → List BugPattern
  | [], p => [p]
  | q :: qs, p => if sameKey q p then mergePatterns q p :: qs else q :: mergeInto qs p

/-- `PatternStore.addPatterns`: incoming patterns are processed in order
against the evolving stored list. -/
def addPatterns (store : List BugPattern) (ps : List BugPattern) : List BugPattern :=
  ps.foldl mergeInto store

/-- Default store returned by `PatternStore.load` when the file is missing or
unreadable: `{version: 1, generated_at: now, patterns: []}`. -/
def defaultMemory (now : String) : BugMemory :=
  ⟨1, now, none, []⟩

/-- `PatternStore.load`.  The disk read yields `none` for a missing file and
`some data` otherwise; `JSON.parse` is an external library call and is passed
in as `parse`, returning `none` when it throws.  Both failure paths fall back
to the default store. -/
def load (now : String) (parse : String → Option BugMemory) (disk : Option String) : BugMemory :=
  match disk with
  | none => defaultMemory now
  | some data =>
    match parse data with
    | some m => m
    | none => defaultMemory now

/-- `PatternStore.getPatternsByLanguage`: patterns whose language equals the
query or the wildcard `unknown`. -/
def getPatternsByLanguage (language : String) (m : BugMemory) : List BugPattern :=
  m.patterns.filter (fun p => p.language == language || p.language == "unknown")

/-! ## Regex fragments used by the detectors

Each function models one fixed regular expression from
`patternExtractor.ts`.  A scan function tries the pattern at every start
position from the left, which matches the JavaScript engine because in all
these patterns every greedy repetition (`\w+`, `\s*`, `[^;]*`, `[^)]*`) is
followed by a literal that cannot occur inside the repeated class, so
backtracking inside a start position never succeeds. -/

/-- Try `f` at every start position, leftmost first (including the empty
suffix at the end of the string, as the JavaScript engine does). -/
def firstStartPos (f : List Char → Option α) : List Char → Option α
  | [] => f []
  | c :: cs =>
    match f (c :: cs) with
    | some x => some x
    | none => firstStartPos f cs

/-- Boolean variant of `firstStartPos`. -/
def anyStartPos (f : List Char → Bool) : List Char → Bool
  | [] => f []
  | c :: cs => f (c :: cs) || anyStartPos f cs

/-- Match a literal character sequence at the start, returning the remainder. -/
def expectLit : List Char → List Char → Option (List Char)
  | [], l => some l
  | _ :: _, [] => none
  | c :: cs, d :: ds => if c = d then expectLit cs ds else none

/-- Greedy `\s*`. -/
def skipSpaces (l : List Char) : List Char :=
  l.dropWhile isSpaceChar

/-- Greedy `\w+` (possibly empty result; callers test for emptiness). -/
def takeWordRun (l : List Char) : List Char × List Char :=
  l.span isWordChar

/-- Regex `(\w+)\.(\w+)` anchored at the current position. -/
def wordDotWordAt (l : List Char) : Option (String × String) :=
  let (r1, rest1) := takeWordRun l
  if r1.isEmpty then none
  else
    match rest1 with
    | '.' :: rest2 =>
      let (r2, _) := takeWordRun rest2
      if r2.isEmpty then none else some (String.mk r1, String.mk r2)
    | _ => none

/-- Leftmost match of `/(\w+)\.(\w+)/` (used by `detectNullCheck`). -/
def firstWordDotWord (s : String) : Option (String × String) :=
  firstStartPos wordDotWordAt s.toList

/-- Regex `(\w+)\s*\(` anchored at the current position. -/
def wordParenAt (l : List Char) : Option String :=
  let (r1, rest1) := takeWordRun l
  if r1.isEmpty then none
  else
    match skipSpaces rest1 with
    | '(' :: _ => some (String.mk r1)
    | _ => none

/-- Leftmost match of `/(\w+)\s*\(/` (used by `detectMissingAwait`). -/
def firstWordParen (s : String) : Option String :=
  firstStartPos wordParenAt s.toList

/-- Regex `(\w+)\s*OP\s*(\w+)` anchored at the current position, for a
literal operator `op`. -/
def wordOpWordAt (op : List Char) (l : List Char) : Option (String × String) :=
  let (r1, rest1) := takeWordRun l
  if r1.isEmpty then none
  else
    match expectLit op (skipSpaces rest1) with
    | some rest2 =>
      let (r2, _) := takeWordRun (skipSpaces rest2)
      if r2.isEmpty then none else some (String.mk r1, String.mk r2)
    | none => none

/-- Leftmost match of `/(\w+)\s*==\s*(\w+)/` or `/(\w+)\s*!=\s*(\w+)/`
(used by `detectLooseEquality`). -/
def firstWordOpWord (op : String) (s : String) : Option (String × String) :=
  firstStartPos (wordOpWordAt op.toList) s.toList

/-- Common front `for\s*\([^;]*;\s*\w+\s*<=` of the two off-by-one loop
regexes, anchored at the current position; returns the remainder after `<=`. -/
def forLeAt (l : List Char) : Option (List Char) :=
  match expectLit "for".toList l with
  | none => none
  | some r1 =>
    match skipSpaces r1 with
    | '(' :: r2 =>
      match r2.dropWhile (fun c => c ≠ ';') with
      | ';' :: r4 =>
        let (w, r5) := takeWordRun (skipSpaces r4)
        if w.isEmpty then none
        else expectLit "<=".toList (skipSpaces r5)
      | _ => none
    | _ => none

/-- Test of `/for\s*\([^;]*;\s*\w+\s*<=\s*.*\.length/`: after the `<=` the
trailing `\s*.*\.length` succeeds exactly when `.length` occurs in the rest
of the line. -/
def hasForLeLength (s : String) : Bool :=
  anyStartPos
    (fun l =>
      match forLeAt l with
      | some r => isSubstrList ".length".toList r
      | none => false)
    s.toList

/-- Test of `/for\s*\([^;]*;\s*\w+\s*<=\s*\w+/`. -/
def hasForLeWord (s : String) : Bool :=
  anyStartPos
    (fun l =>
      match forLeAt l with
      | some r => !(takeWordRun (skipSpaces r)).1.isEmpty
      | none => false)
    s.toList

/-- Regex `\[\w+\]` anchored at the current position. -/
def bracketWordAt (l : List Char) : Bool :=
  match l with
  | '[' :: r =>
    let (w, r2) := takeWordRun r
    !w.isEmpty &&
      (match r2 with
       | ']' :: _ => true
       | _ => false)
  | _ => false

/-- Test of `/\[\w+\]/` (used by `detectUndefinedAccess`). -/
def hasBracketWord (s : String) : Bool :=
  anyStartPos bracketWordAt s.toList

/-- Regex `LIT\s*\([^)]*\)` anchored at the current position, for a literal
call head `fname` (used for `JSON.parse` and `fetch`). -/
def litCallParenAt (fname : List Char) (l : List Char) : Bool :=
  match expectLit fname l with
  | none => false
  | some r =>
    match skipSpaces r with
    | '(' :: r2 =>
      (match r2.dropWhile (fun c => c ≠ ')') with
       | ')' :: _ => true
       | _ => false)
    | _ => false

/-- Test of `/JSON\.parse\s*\([^)]*\)/`. -/
def hasJsonParseCall (s : String) : Bool :=
  anyStartPos (litCallParenAt "JSON.parse".toList) s.toList

/-- Test of `/fetch\s*\([^)]*\)/`. -/
def hasFetchCall (s : String) : Bool :=
  anyStartPos (litCallParenAt "fetch".toList) s.toList

/-- Regex `\.json\s*\(` anchored at the current position. -/
def dotJsonCallAt (l : List Char) : Bool :=
  match expectLit ".json".toList l with
  | none => false
  | some r =>
    match skipSpaces r with
    | '(' :: _ => true
    | _ => false

/-- Test of `/\.json\s*\(/`. -/
def hasDotJsonCall (s : String) : Bool :=
  anyStartPos dotJsonCallAt s.toList

/-- Regex `this\.state\[(\w+)\]` anchored at the current position. -/
def thisStateBracketAt (l : List Char) : Option String :=
  match expectLit "this.state[".toList l with
  | none => none
  | some r =>
    let (w, r2) := takeWordRun r
    if w.isEmpty then none
    else
      match r2 with
      | ']' :: _ => some (String.mk w)
      | _ => none

/-- Leftmost match of `/this\.state\[(\w+)\]/` (used by `detectRaceCondition`). -/
def firstThisStateBracket (s : String) : Option String :=
  firstStartPos thisStateBracketAt s.toList

/-- Regex `this\.(\w+)\s*=` anchored at the current position. -/
def thisPropAssignAt (l : List Char) : Option String :=
  match expectLit "this.".toList l with
  | none => none
  | some r =>
    let (w, r2) := takeWordRun r
    if w.isEmpty then none
    else
      match skipSpaces r2 with
      | '=' :: _ => some (String.mk w)
      | _ => none

/-- Leftmost match of `/this\.(\w+)\s*=/`. -/
def firstThisPropAssign (s : String) : Option String :=
  firstStartPos thisPropAssignAt s.toList

/-- Regex `@@ -(\d+)` anchored at the current position: the literal `@@ -`
followed by at least one digit; returns the numeric value of the greedy
digit run (`parseInt(match[1], 10)`). -/
def hunkStartAt (l : List Char) : Option ℤ :=
  match expectLit "@@ -".toList l with
  | none => none
  | some r =>
    let (ds, _) := r.span Char.isDigit
    if ds.isEmpty then none
    else some (Int.ofNat (ds.foldl (fun a c => a * 10 + (c.toNat - 48)) 0))

/-- Leftmost match of `/@@ -(\d+)/` against a hunk header line. -/
def hunkStartLine (s : String) : Option ℤ :=
  firstStartPos hunkStartAt s.toList

/-- Matching semantics of the regex synthesized by `detectNullCheck`,
`\b<var>\.<prop>\b(?!\?)`, compiled with the `i` flag as the scanner does
(`new RegExp(pattern.regex, 'gi')`), for word-character names `var`/`prop`:
some position holds the dotted chain, preceded by no word character, and the
following character (if any) is neither a word character (`\b`) nor `?`
(the negative lookahead). -/
def nullRegexScan (target : List Char) : Option Char → List Char → Bool
  | prev, [] =>
    let _ := prev
    false
  | prev, c :: cs =>
    ((match prev with
      | none => true
      | some pc => !isWordChar pc) &&
     target.isPrefixOf (jsToLowerList (c :: cs)) &&
     (match (c :: cs).drop target.length with
      | [] => true
      | d :: _ => !isWordChar d && d ≠ '?')) ||
    nullRegexScan target (some c) cs

/-- Whether the synthesized null-check regex for `varName`/`propName`
matches `line`. -/
def nullCheckRegexMatches (varName propName line : String) : Bool :=
  nullRegexScan (jsToLowerList (varName ++ "." ++ propName).toList) none line.toList

/-! ## Detector registry (`PatternExtractor.detect*`) -/

/-- Result skeleton returned by a detector heuristic. -/
structure DetectorResult where
  regex : String
  category : String
  riskBase : ℤ
deriving DecidableEq

/-- `PatternExtractor.detectNullCheck`. -/
def detectNullCheck (buggyLine fixedLine language : String) : Option DetectorResult :=
  let _ := language
  let hasNullCheckAdded :=
    (jsIncludes fixedLine "?." && !jsIncludes buggyLine "?.") ||
    (jsIncludes fixedLine "&&" && !jsIncludes buggyLine "&&") ||
    (jsIncludes fixedLine "if" && jsIncludes fixedLine "null") ||
    (jsIncludes fixedLine "if" && jsIncludes fixedLine "undefined")
  if hasNullCheckAdded && jsIncludes buggyLine "." then
    match firstWordDotWord buggyLine with
    | some (varName, propName) =>
      some ⟨"\\b" ++ varName ++ "\\." ++ propName ++ "\\b(?!\\?)", "null_check_missing", 8⟩
    | none => none
  else none

/-- `PatternExtractor.detectOffByOneLoop`. -/
def detectOffByOneLoop (buggyLine fixedLine language : String) : Option DetectorResult :=
  let _ := language
  if jsIncludes buggyLine "<=" && jsIncludes fixedLine "<" && !jsIncludes fixedLine "<=" then
    if hasForLeLength buggyLine || hasForLeWord buggyLine then
      some ⟨"for\\s*\\([^;]*;\\s*\\w+\\s*<=\\s*\\w+\\.length", "off_by_one_loop", 9⟩
    else none
  else none

/-- `PatternExtractor.detectMissingAwait`. -/
def detectMissingAwait (buggyLine fixedLine language : String) : Option DetectorResult :=
  if (language = "typescript" || language = "javascript") &&
      jsIncludes fixedLine "await" && !jsIncludes buggyLine "await" then
    match firstWordParen buggyLine with
    | some funcName =>
      some ⟨"(?<!await\\s+)\\b" ++ funcName ++ "\\s*\\(", "missing_await", 7⟩
    | none => none
  else none

/-- `PatternExtractor.detectUndefinedAccess`. -/
def detectUndefinedAccess (buggyLine fixedLine language : String) : Option DetectorResult :=
  let _ := language
  if hasBracketWord buggyLine && (jsIncludes fixedLine "?.[" || jsIncludes fixedLine "&&") then
    some ⟨"\\w+\\[\\w+\\](?!\\?)", "undefined_access", 7⟩
  else none

/-- `PatternExtractor.detectTypeError`. -/
def detectTypeError (buggyLine fixedLine language : String) : Option DetectorResult :=
  let _ := buggyLine
  if (language = "typescript" || language = "javascript") &&
      (jsIncludes fixedLine " as " || jsIncludes fixedLine "typeof") then
    some ⟨"\\w+\\s*=\\s*\\w+(?!\\s+as\\s+)", "type_error", 5⟩
  else none

/-- `PatternExtractor.detectLooseEquality`. -/
def detectLooseEquality (buggyLine fixedLine language : String) : Option DetectorResult :=
  let _ := language
  if (jsIncludes buggyLine "==" && !jsIncludes buggyLine "===" && jsIncludes fixedLine "===") ||
      (jsIncludes buggyLine "!=" && !jsIncludes buggyLine "!==" && jsIncludes fixedLine "!==") then
    match firstWordOpWord "==" buggyLine with
    | some (a, b) =>
      some ⟨"\\b" ++ a ++ "\\s*==\\s*" ++ b ++ "\\b", "loose_equality", 5⟩
    | none =>
      match firstWordOpWord "!=" buggyLine with
      | some (a, b) =>
        some ⟨"\\b" ++ a ++ "\\s*!=\\s*" ++ b ++ "\\b", "loose_equality", 5⟩
      | none => none
  else none

/-- `PatternExtractor.detectMissingErrorHandling`. -/
def detectMissingErrorHandling (buggyLine fixedLine language : String) : Option DetectorResult :=
  let _ := language
  if (jsIncludes fixedLine "try" || jsIncludes fixedLine "catch") &&
      !jsIncludes buggyLine "try" && !jsIncludes buggyLine "catch" then
    if hasJsonParseCall buggyLine then
      some ⟨"JSON\\.parse\\s*\\([^)]*\\)", "missing_error_handling", 7⟩
    else if hasDotJsonCall buggyLine then
      some ⟨"\\.json\\s*\\(\\s*\\)", "missing_error_handling", 7⟩
    else if hasFetchCall buggyLine then
      some ⟨"fetch\\s*\\([^)]+\\)", "missing_error_handling", 7⟩
    else none
  else none

/-- `PatternExtractor.detectMemoryLeak`. -/
def detectMemoryLeak (buggyLine fixedLine language : String) : Option DetectorResult :=
  let _ := language
  if (jsIncludes fixedLine "return" && jsIncludes fixedLine "()") ||
      jsIncludes fixedLine "clearInterval" || jsIncludes fixedLine "clearTimeout" ||
      jsIncludes fixedLine ".close()" || jsIncludes fixedLine "unsubscribe" then
    if jsIncludes buggyLine "setInterval" && !jsIncludes buggyLine "const" &&
        !jsIncludes buggyLine "let" then
      some ⟨"setInterval\\s*\\([^)]+\\)[^;]*;(?!.*const|.*let)", "memory_leak", 6⟩
    else if jsIncludes buggyLine ".watch(" && !jsIncludes buggyLine "const" &&
        !jsIncludes buggyLine "let" then
      some ⟨"\\.watch\\s*\\([^)]+\\)[^;]*;(?!.*const|.*let)", "memory_leak", 6⟩
    else if jsIncludes buggyLine ".push(" && jsIncludes buggyLine "listeners" then
      some ⟨"\\.push\\s*\\(\\s*callback\\s*\\)\\s*;(?!.*return)", "memory_leak", 6⟩
    else none
  else none

/-- `PatternExtractor.detectUnhandledPromise`. -/
def detectUnhandledPromise (buggyLine fixedLine language : String) : Option DetectorResult :=
  let _ := language
  if jsIncludes fixedLine ".catch" && !jsIncludes buggyLine ".catch" then
    some ⟨"\\.\\s*then\\s*\\([^)]*\\)(?!\\s*\\.\\s*catch)", "unhandled_promise", 6⟩
  else none

/-- `PatternExtractor.detectVarScoping`. -/
def detectVarScoping (buggyLine fixedLine language : String) : Option DetectorResult :=
  let _ := language
  if jsIncludes buggyLine "var " && (jsIncludes fixedLine "let " || jsIncludes fixedLine "const ") then
    some ⟨"\\bvar\\s+\\w+", "var_scoping", 4⟩
  else none

/-- `PatternExtractor.detectRaceCondition`. -/
def detectRaceCondition (buggyLine fixedLine language : String) : Option DetectorResult :=
  let _ := language
  if (jsIncludes fixedLine "lock" || jsIncludes fixedLine "mutex" || jsIncludes fixedLine "while") &&
      (!jsIncludes buggyLine "lock" && !jsIncludes buggyLine "mutex" && !jsIncludes buggyLine "while") then
    if jsIncludes buggyLine "this.state[" && jsIncludes buggyLine "=" then
      match firstThisStateBracket buggyLine with
      | some key =>
        some ⟨"this\\.state\\[" ++ key ++ "\\]\\s*=", "race_condition", 7⟩
      | none => none
    else if jsIncludes buggyLine "this." && jsIncludes buggyLine "=" && jsIncludes buggyLine "//" then
      match firstThisPropAssign buggyLine with
      | some prop =>
        some ⟨"this\\." ++ prop ++ "\\s*=\\s*[^;]+;\\s*\\/\\/.*(?:race|concurrent|update)",
              "race_condition", 7⟩
      | none => none
    else none
  else none

/-- Ordered detector list of `PatternExtractor.analyzeBugPattern`; the first
non-empty result wins. -/
def detectorList : List (String → String → String → Option DetectorResult) :=
  [detectNullCheck, detectOffByOneLoop, detectMissingAwait, detectUndefinedAccess,
   detectTypeError, detectLooseEquality, detectMissingErrorHandling, detectMemoryLeak,
   detectUnhandledPromise, detectVarScoping, detectRaceCondition]

/-- First detector hit, in registry order. -/
def runDetectors (buggyLine fixedLine language : String) : Option DetectorResult :=
  detectorList.findSome? (fun d => d buggyLine fixedLine language)

/-- First line of a commit message (`message.split('\n')[0]`). -/
def firstMessageLine (message : String) : String :=
  (jsSplitLines message).headD ""

/-- `PatternExtractor.analyzeBugPattern`.  The pattern id comes from the
impure `generatePatternId()` in the source (timestamp plus random suffix) and
is passed in explicitly here. -/
def analyzeBugPattern (id buggyLine fixedLine language sha message filename : String)
    (lineNumber : ℤ) : Option BugPattern :=
  if jsTrim buggyLine == "" || jsTrim fixedLine == "" then none
  else if jsStartsWith (jsTrim buggyLine) "//" && jsStartsWith (jsTrim fixedLine) "//" then none
  else
    match runDetectors buggyLine fixedLine language with
    | some r =>
      some
        { id := id
          language := language
          regex := r.regex
          category := r.category
          risk_base := r.riskBase
          commits := [⟨sha, filename, lineNumber, firstMessageLine message⟩]
          occurrence_count := 1
          buggyExample := buggyLine
          fixedExample := fixedLine }
    | none => none

/-! ## Diff analyzer (`PatternExtractor.extractPatternsFromDiff`) -/

/-- Loop state of `extractPatternsFromDiff`, extended with the list of
candidate `(buggyLine, fixedLine, lineNumber)` triples at which the source
invokes `analyzeBugPattern` (in invocation order). -/
structure DiffState where
  lineNumber : ℤ
  inRemovalBlock : Bool
  removedLines : List String
  pairs : List (String × String × ℤ)
deriving DecidableEq

/-- One iteration of the `extractPatternsFromDiff` loop.  Hunk headers update
only the line cursor (`continue`); removal lines set the removal flag and
push their trimmed content; an added line forms a candidate with the last
buffered removed line when the flag is set (the buffer itself is never
cleared in the source), then clears the flag; any other line clears the flag
and advances the cursor unless it is a `\` marker. -/
def diffStep (st : DiffState) (line : String) : DiffState :=
  if jsStartsWith line "@@" then
    match hunkStartLine line with
    | some n => { st with lineNumber := n }
    | none => st
  else if jsStartsWith line "-" && !jsStartsWith line "---" then
    { st with inRemovalBlock := true, removedLines := st.removedLines ++ [jsTrim (strDrop line 1)] }
  else if jsStartsWith line "+" && !jsStartsWith line "+++" then
    if st.inRemovalBlock ∧ 0 < st.removedLines.length then
      { st with
        pairs := st.pairs ++ [(st.removedLines.getLastD "", jsTrim (strDrop line 1), st.lineNumber)]
        inRemovalBlock := false
        lineNumber := st.lineNumber + 1 }
    else { st with inRemovalBlock := false, lineNumber := st.lineNumber + 1 }
  else
    { st with
      inRemovalBlock := false
      lineNumber := if jsStartsWith line "\\" then st.lineNumber else st.lineNumber + 1 }

/-- Initial loop state (`lineNumber = 0`, no removal block, empty buffers). -/
def initDiffState : DiffState :=
  ⟨0, false, [], []⟩

/-- Candidate pairs produced from one file's unified-diff patch text. -/
def extractPairsFromPatch (patch : String) : List (String × String × ℤ) :=
  ((jsSplitLines patch).foldl diffStep initDiffState).pairs

/-- `PatternExtractor.detectLanguage`. -/
def detectLanguage (filename : String) : String :=
  let ext := String.mk (jsToLowerList ((splitOnPred (fun c => c = '.') filename.toList).getLastD []))
  if ext = "ts" then "typescript"
  else if ext = "js" then "javascript"
  else if ext = "tsx" then "typescript"
  else if ext = "jsx" then "javascript"
  else if ext = "py" then "python"
  else if ext = "java" then "java"
  else if ext = "cpp" then "cpp"
  else if ext = "c" then "c"
  else if ext = "go" then "go"
  else if ext = "rs" then "rust"
  else if ext = "rb" then "ruby"
  else if ext = "php" then "php"
  else "unknown"

/-- `PatternExtractor.extractPatternsFromDiff`: each candidate pair is
analyzed in order; rejected candidates contribute nothing.  Fresh pattern ids
are drawn from the injected generator `idGen` (indexed by candidate
position), replacing the impure `generatePatternId()`. -/
def extractPatternsFromDiff (idGen : ℕ → String) (filename patch sha message : String) :
    List BugPattern :=
  let language := detectLanguage filename
  (extractPairsFromPatch patch).enum.filterMap
    (fun ip => analyzeBugPattern (idGen ip.1) ip.2.1 ip.2.2.1 language sha message filename ip.2.2.2)

/-- Deduplication key of the `patternMap` in `extractPatterns`:
`` `${pattern.regex}_${pattern.category}` ``. -/
def patternKey (p : BugPattern) : String :=
  p.regex ++ "_" ++ p.category

/-- Insertion-ordered map update of `extractPatterns`: a key hit increments
the stored occurrence count by one and appends the incoming commits; a miss
appends the new entry. -/
def mapUpsert (m : List (String × BugPattern)) (p : BugPattern) : List (String × BugPattern) :=
  if m.any (fun kv => kv.1 == patternKey p) then
    m.map
      (fun kv =>
        if kv.1 == patternKey p then
          (kv.1,
           { kv.2 with
             occurrence_count := kv.2.occurrence_count + 1
             commits := kv.2.commits ++ p.commits })
        else kv)
  else m ++ [(patternKey p, p)]

/-- `PatternExtractor.extractPatterns`: walk every commit's files, extract
per-file patterns, and fold them into the deduplicating pattern map; the
result is the map's values in insertion order. -/
def extractPatterns (idGen : ℕ → String) (commits : List GitCommit) : List BugPattern :=
  (commits.foldl
    (fun m commit =>
      match commit.files with
      | none => m
      | some files =>
        files.foldl
          (fun m file =>
            match file.patch with
            | none => m
            | some patch =>
              (extractPatternsFromDiff idGen file.filename patch commit.sha commit.message).foldl
                mapUpsert m)
          m)
    []).map (fun kv => kv.2)

/-! ## Risk scorer (`RiskScorer`, src/engine/riskScorer.ts) -/

/-- `RiskScorer.calculateFileHistoryFactor`: count, over all patterns in the
store, the commit references whose `file` contains the basename of the
scored path as a substring, and map the count through the bonus ladder. -/
def calculateFileHistoryFactor (filePath : String) (patterns : List BugPattern) : ℚ :=
  let fileName := jsBasename filePath
  let fileOccurrences : ℕ :=
    patterns.foldl
      (fun acc p =>
        p.commits.foldl (fun a c => if jsIncludes c.file fileName then a + 1 else a) acc)
      0
  if 5 ≤ fileOccurrences then 3/2
  else if 3 ≤ fileOccurrences then 1
  else if 1 ≤ fileOccurrences then 1/2
  else 0

/-- `RiskScorer.calculateRiskScore`.  The arithmetic is over the reals
(JavaScript numbers), with `Math.log(x) / Math.log(2)` as `Real.log`;
`Math.round` is floor of the value plus one half; both clamps are explicit. -/
noncomputable def calculateRiskScore (p : BugPattern) (filePath : String)
    (storePatterns : List BugPattern) : ℤ :=
  let base : ℝ := (p.risk_base : ℝ)
  let occurrenceBonus : ℝ := min 2 (Real.log ((p.occurrence_count : ℝ) + 1) / Real.log 2)
  let withHistory : ℝ :=
    base + occurrenceBonus + ((calculateFileHistoryFactor filePath storePatterns : ℚ) : ℝ)
  let specAdjusted : ℝ :=
    if jsIncludes p.regex "\\w+" ∧ p.regex.length < 30 then withHistory - 1/2 else withHistory
  let finalScore : ℤ := max 1 (min 10 ⌊specAdjusted + 1/2⌋)
  let variance : ℤ :=
    if p.category = "" then 0 else ((charCodeSum p.category : ℤ) % 3) - 1
  max 1 (min 10 (finalScore + variance))

/-- Sensitivity levels of the extension configuration. -/
inductive Sensitivity
  | low
  | medium
  | high
deriving DecidableEq

/-- `RiskScorer.adjustForSensitivity`. -/
def adjustForSensitivity (score : ℤ) : Sensitivity → ℤ
  | Sensitivity.low => if 7 ≤ score then score else 0
  | Sensitivity.medium => if 5 ≤ score then score else 0
  | Sensitivity.high => if 3 ≤ score then score else 0

/-! ## Line scanner (`CodeScanner`, src/engine/codeScanner.ts) -/

/-- Base explanation templates of `CodeScanner.generateReason`; categories
absent from the record fall back to the `other` template. -/
def baseTemplate (category : String) : String :=
  if category = "null_check_missing" then "Missing null/undefined check"
  else if category = "off_by_one_loop" then "Off-by-one error in loop boundary"
  else if category = "missing_await" then "Missing await keyword for async operation"
  else if category = "undefined_access" then "Unsafe array/object access"
  else if category = "race_condition" then "Potential race condition"
  else if category = "memory_leak" then "Possible memory leak"
  else if category = "type_error" then "Type mismatch error"
  else if category = "logic_error" then "Logic error"
  else "Suspicious pattern"

/-- `CodeScanner.generateReason`. -/
def generateReason (p : BugPattern) : String :=
  let baseReason := baseTemplate p.category
  match p.commits with
  | [] => baseReason
  | firstCommit :: _ =>
    let parts := splitOnPred (fun c => c = '/' || c = '\\') firstCommit.file.toList
    let last := parts.getLastD []
    let fileName := if last.isEmpty then firstCommit.file else String.mk last
    if 1 < p.occurrence_count then
      baseReason ++ " (found " ++ toString p.occurrence_count ++ "x in history)"
    else baseReason ++ " in " ++ fileName

/-- Scan of one line against an explicit pattern list.  The regex engine is
passed in as `rx`: `rx r` is `none` when `new RegExp(r, 'gi')` throws (the
`catch` path, which skips that pattern), and otherwise a match test for the
compiled regex.  Scores are computed against the full store, as the source
passes `this.patternStore` to the scorer. -/
noncomputable def scanLineOver (rx : String → Option (String → Bool)) (line : String)
    (lineNumber : ℤ) (filePath : String) (storePatterns : List BugPattern)
    (patterns : List BugPattern) : List ScanResult :=
  patterns.filterMap
    (fun p =>
      match rx p.regex with
      | none => none
      | some test =>
        if test line then
          some
            { lineNumber := lineNumber
              riskScore := calculateRiskScore p filePath storePatterns
              patternId := p.id
              commitShas := p.commits.map (fun c => c.sha)
              shortReason := generateReason p
              category := p.category }
        else none)

/-- `CodeScanner.scanLine`: the scanned patterns are the store's
language-filtered patterns. -/
noncomputable def scanLine (rx : String → Option (String → Bool)) (line : String)
    (lineNumber : ℤ) (language filePath : String) (m : BugMemory) : List ScanResult :=
  scanLineOver rx line lineNumber filePath m.patterns (getPatternsByLanguage language m)

/-! ## Specification-side definitions

These are formulations taken from the specification's / claims' wording, to
be compared against the source-derived definitions above. -/

/-- Projection of candidate triples to their `(buggyLine, fixedLine)` pairs. -/
def pairsBF (l : List (String × String × ℤ)) : List (String × String) :=
  l.map (fun t => (t.1, t.2.1))

/-- Modelled from the claim's wording (strict reading): a candidate pair
arises exactly at a `+` line (not `+++`) whose immediately preceding patch
line is a `-` line (not `---`), pairing the added line with that removed
line. -/
def specStrictPairs : List String → List (String × String)
  | [] => []
  | [_] => []
  | a :: b :: rest =>
    (if (jsStartsWith a "-" && !jsStartsWith a "---") &&
        (jsStartsWith b "+" && !jsStartsWith b "+++") then
      [(jsTrim (strDrop a 1), jsTrim (strDrop b 1))]
    else []) ++ specStrictPairs (b :: rest)

/-- Amended reading of the pairing rule: track the most recent removed line,
where hunk header lines (`@@`) are transparent (they reset nothing), a `-`
line records its trimmed content, and any other non-`+` line forgets it; a
`+` line produces a pair exactly when a removed line is still on record, and
consumes it. -/
def specAmendedStep (s : Option String × List (String × String)) (line : String) :
    Option String × List (String × String) :=
  if jsStartsWith line "@@" then s
  else if jsStartsWith line "-" && !jsStartsWith line "---" then
    (some (jsTrim (strDrop line 1)), s.2)
  else if jsStartsWith line "+" && !jsStartsWith line "+++" then
    match s.1 with
    | some buggy => (none, s.2 ++ [(buggy, jsTrim (strDrop line 1))])
    | none => (none, s.2)
  else (none, s.2)

/-- Candidate pairs under the amended reading. -/
def specAmendedPairs (lines : List String) : List (String × String) :=
  (lines.foldl specAmendedStep (none, [])).2

/-- Bonus ladder of the file-history factor (count of matching commit
references to bonus). -/
def thresholdBonus (n : ℕ) : ℚ :=
  if 5 ≤ n then 3/2 else if 3 ≤ n then 1 else if 1 ≤ n then 1/2 else 0

/-- Modelled from the claim's wording: the file-history count is the number
of commit references whose referenced file's basename equals the scored
path's basename. -/
def specBasenameHistoryBonus (filePath : String) (patterns : List BugPattern) : ℚ :=
  thresholdBonus
    (((patterns.map (fun p => p.commits)).flatten).countP
      (fun c => jsBasename c.file == jsBasename filePath))

/-- Substring-containment count that the code actually uses: commit
references whose `file` contains the scored path's basename as a substring. -/
def substrHistoryCount (filePath : String) (patterns : List BugPattern) : ℕ :=
  ((patterns.map (fun p => p.commits)).flatten).countP
    (fun c => jsIncludes c.file (jsBasename filePath))

/-- Invariant connecting the source diff-loop state with the amended
specification state: emitted pairs agree, and the removal flag is set
exactly when a removed line is on record, in which case it is the last
buffered one. -/
def C4Inv (st : DiffState) (s : Option String × List (String × String)) : Prop :=
  pairsBF st.pairs = s.2 ∧
  (match s.1 with
   | some x => st.inRemovalBlock = true ∧ st.removedLines ≠ [] ∧ st.removedLines.getLastD "" = x
   | none => st.inRemovalBlock = false)

/-! ## Theorems -/

theorem clampOneTen_bounds (z : ℤ) : 1 ≤ max 1 (min 10 z) ∧ max 1 (min 10 z) ≤ 10 :=
  ⟨le_max_left _ _, max_le (by norm_num) (min_le_left _ _)⟩

/-- Claim C2: for every pattern whose baseline risk lies in the valid range
and every file path and repository state (including an empty store),
`calculateRiskScore` returns an integer between 1 and 10. -/
theorem calculateRiskScore_in_range (p : BugPattern) (filePath : String)
    (storePatterns : List BugPattern) (_h1 : 1 ≤ p.risk_base) (_h2 : p.risk_base ≤ 10) :
    1 ≤ calculateRiskScore p filePath storePatterns ∧
      calculateRiskScore p filePath storePatterns ≤ 10 := by
  unfold calculateRiskScore
  exact clampOneTen_bounds _

theorem calculateRiskScore_in_range_witness :
    1 ≤ calculateRiskScore ⟨"i", "typescript", "r", "null_check_missing", 8, [], 1, "", ""⟩
        "a.ts" [] ∧
      calculateRiskScore ⟨"i", "typescript", "r", "null_check_missing", 8, [], 1, "", ""⟩
        "a.ts" [] ≤ 10 :=
  calculateRiskScore_in_range _ "a.ts" [] (by decide) (by decide)

/-- Claim C8: `adjustForSensitivity` keeps a score exactly when it reaches
the level's threshold (7 for low, 5 for medium, 3 for high) and suppresses
it to 0 otherwise; consequently any score kept at level low is also kept,
unchanged, at medium and at high. -/
theorem adjustForSensitivity_gate_monotone (s : ℤ) :
    adjustForSensitivity s Sensitivity.low = (if 7 ≤ s then s else 0) ∧
    adjustForSensitivity s Sensitivity.medium = (if 5 ≤ s then s else 0) ∧
    adjustForSensitivity s Sensitivity.high = (if 3 ≤ s then s else 0) ∧
    (adjustForSensitivity s Sensitivity.low ≠ 0 →
      adjustForSensitivity s Sensitivity.medium = s ∧
        adjustForSensitivity s Sensitivity.high = s) := by
  refine ⟨rfl, rfl, rfl, ?_⟩
  intro h
  unfold adjustForSensitivity at h ⊢
  by_cases h7 : 7 ≤ s
  · rw [if_pos (by linarith : 5 ≤ s), if_pos (by linarith : 3 ≤ s)]
    exact ⟨rfl, rfl⟩
  · rw [if_neg h7] at h
    exact absurd rfl h

theorem adjustForSensitivity_gate_monotone_witness :
    adjustForSensitivity 8 Sensitivity.medium = 8 ∧
      adjustForSensitivity 8 Sensitivity.high = 8 :=
  (adjustForSensitivity_gate_monotone 8).2.2.2 (by decide)

/-- Claim C6: for a missing store file or any content on which the parse
fails, `load` returns the default store `{version: 1, patterns: []}` and a
subsequent language query on the result is empty. -/
theorem load_failure_defaults (now lang : String) (parse : String → Option BugMemory)
    (disk : Option String)
    (h : disk = none ∨ ∃ data, disk = some data ∧ parse data = none) :
    load now parse disk = defaultMemory now ∧
      (load now parse disk).patterns = [] ∧
      getPatternsByLanguage lang (load now parse disk) = [] := by
  have hl : load now parse disk = defaultMemory now := by
    rcases h with h | ⟨data, hd, hp⟩
    · rw [h]
      rfl
    · rw [hd]
      simp only [load, hp]
  rw [hl]
  exact ⟨rfl, rfl, rfl⟩

theorem load_failure_defaults_witness :
    load "t0" (fun _ => none) (some "") = defaultMemory "t0" ∧
      (load "t0" (fun _ => none) (some "")).patterns = [] ∧
      getPatternsByLanguage "typescript" (load "t0" (fun _ => none) (some "")) = [] :=
  load_failure_defaults "t0" "typescript" (fun _ => none) (some "") (Or.inr ⟨"", rfl, rfl⟩)

/-- Claim C10: a candidate pair whose buggy or fixed line trims to the empty
string, or whose two trimmed lines both start with `//`, never produces a
pattern, regardless of the remaining content. -/
theorem analyzeBugPattern_skips_trivial (id b f lang sha msg fn : String) (ln : ℤ)
    (h : jsTrim b = "" ∨ jsTrim f = "" ∨
      (jsStartsWith (jsTrim b) "//" = true ∧ jsStartsWith (jsTrim f) "//" = true)) :
    analyzeBugPattern id b f lang sha msg fn ln = none := by
  rcases h with h | h | ⟨h1, h2⟩
  · simp [analyzeBugPattern, h]
  · simp [analyzeBugPattern, h]
  · by_cases hc : (jsTrim b == "" || jsTrim f == "") = true
    · simp [analyzeBugPattern, hc]
    · simp [analyzeBugPattern, hc, h1, h2]

theorem analyzeBugPattern_skips_trivial_witness :
    analyzeBugPattern "i" "   " "x = 1;" "typescript" "s" "m" "f.ts" 0 = none :=
  analyzeBugPattern_skips_trivial "i" "   " "x = 1;" "typescript" "s" "m" "f.ts" 0
    (Or.inl (by decide))

/-- Claim C3: on the candidate pair `return user.name;` fixed to
`return user?.name ?? 'Unknown';` in typescript, the detector registry
produces category `null_check_missing` with risk base 8, and the synthesized
regex matches `console.log(user.name)` but not `console.log(user?.name)`. -/
theorem nullCheck_scenarioB :
    (analyzeBugPattern "p0" "return user.name;" "return user?.name ?? \x27Unknown\x27;"
        "typescript" "sha1" "fix" "a.ts" 1).map (fun p => (p.category, p.risk_base, p.regex)) =
      some ("null_check_missing", 8, "\\buser\\.name\\b(?!\\?)") ∧
    nullCheckRegexMatches "user" "name" "console.log(user.name)" = true ∧
    nullCheckRegexMatches "user" "name" "console.log(user?.name)" = false :=
  ⟨by decide, by decide, by decide⟩

/-- Claim C7: a stored pattern whose regex fails to compile is skipped for
the line, and the scan still returns exactly the results of all other
language-applicable patterns of the same call (scored against the full
store). -/
theorem scanLine_skips_malformed (rx : String → Option (String → Bool)) (line : String)
    (n : ℤ) (lang fp : String) (m : BugMemory) (A B : List BugPattern) (bad : BugPattern)
    (hsplit : getPatternsByLanguage lang m = A ++ bad :: B) (hbad : rx bad.regex = none) :
    scanLine rx line n lang fp m =
      scanLineOver rx line n fp m.patterns A ++ scanLineOver rx line n fp m.patterns B := by
  unfold scanLine
  rw [hsplit]
  unfold scanLineOver
  rw [List.filterMap_append]
  congr 1
  simp [List.filterMap_cons, hbad]

theorem scanLine_skips_malformed_witness :
    scanLine (fun _ => none) "x" 0 "typescript" "f.ts"
        ⟨1, "t", none, [⟨"b", "typescript", "(", "null_check_missing", 8, [], 1, "", ""⟩]⟩ =
      scanLineOver (fun _ => none) "x" 0 "f.ts"
          [⟨"b", "typescript", "(", "null_check_missing", 8, [], 1, "", ""⟩] [] ++
        scanLineOver (fun _ => none) "x" 0 "f.ts"
          [⟨"b", "typescript", "(", "null_check_missing", 8, [], 1, "", ""⟩] [] :=
  scanLine_skips_malformed (fun _ => none) "x" 0 "typescript" "f.ts" _ [] []
    ⟨"b", "typescript", "(", "null_check_missing", 8, [], 1, "", ""⟩ (by decide) rfl

/-- Claim C1: each incoming pattern is folded into the store in order; on a
key hit (equal regex and category) the first matching stored pattern gains
the incoming occurrence count, has the incoming commits appended without
deduplication, and takes the rounded two-term mean of the risk bases; on a
miss the incoming pattern is appended unchanged. -/
theorem addPatterns_merge_semantics (store rest : List BugPattern) (p : BugPattern) :
    addPatterns store (p :: rest) = addPatterns (mergeInto store p) rest ∧
    (∀ A q B, store = A ++ q :: B → (∀ r ∈ A, sameKey r p = false) → sameKey q p = true →
      mergeInto store p =
        A ++ { q with
                occurrence_count := q.occurrence_count + p.occurrence_count,
                commits := q.commits ++ p.commits,
                risk_base := jsRound (((q.risk_base + p.risk_base : ℤ) : ℚ) / 2) } :: B) ∧
    ((∀ q ∈ store, sameKey q p = false) → mergeInto store p = store ++ [p]) := by
  refine ⟨rfl, ?_, ?_⟩
  · intro A q B hst hA hq
    subst hst
    induction A with
    | nil => simp [mergeInto, hq, mergePatterns]
    | cons a A ih =>
      have ha : sameKey a p = false := hA a (by simp)
      have ih' := ih (fun r hr => hA r (by simp [hr]))
      simp only [List.cons_append]
      rw [show mergeInto (a :: (A ++ q :: B)) p = a :: mergeInto (A ++ q :: B) p by
        simp [mergeInto, ha]]
      rw [ih']
  · intro hall
    induction store with
    | nil => rfl
    | cons q qs ih =>
      have hq : sameKey q p = false := hall q (by simp)
      have ih' := ih (fun r hr => hall r (by simp [hr]))
      simp [mergeInto, hq, ih']

theorem addPatterns_merge_semantics_witness :
    mergeInto [⟨"q", "typescript", "rx", "cat", 9, [⟨"s1", "a.ts", 1, "m1"⟩], 2, "b", "f"⟩]
        ⟨"p", "typescript", "rx", "cat", 8, [⟨"s2", "b.ts", 2, "m2"⟩], 1, "b2", "f2"⟩ =
      [] ++ { (⟨"q", "typescript", "rx", "cat", 9, [⟨"s1", "a.ts", 1, "m1"⟩], 2, "b", "f"⟩ :
                BugPattern) with
              occurrence_count := 2 + 1,
              commits := [⟨"s1", "a.ts", 1, "m1"⟩] ++ [⟨"s2", "b.ts", 2, "m2"⟩],
              risk_base := jsRound (((9 + 8 : ℤ) : ℚ) / 2) } :: [] ∧
    mergeInto []
        ⟨"p", "typescript", "rx", "cat", 8, [⟨"s2", "b.ts", 2, "m2"⟩], 1, "b2", "f2"⟩ =
      [] ++ [⟨"p", "typescript", "rx", "cat", 8, [⟨"s2", "b.ts", 2, "m2"⟩], 1, "b2", "f2"⟩] :=
  ⟨(addPatterns_merge_semantics
      [⟨"q", "typescript", "rx", "cat", 9, [⟨"s1", "a.ts", 1, "m1"⟩], 2, "b", "f"⟩] []
      ⟨"p", "typescript", "rx", "cat", 8, [⟨"s2", "b.ts", 2, "m2"⟩], 1, "b2", "f2"⟩).2.1
      [] ⟨"q", "typescript", "rx", "cat", 9, [⟨"s1", "a.ts", 1, "m1"⟩], 2, "b", "f"⟩ []
      rfl (by simp) (by decide),
   (addPatterns_merge_semantics []
      [] ⟨"p", "typescript", "rx", "cat", 8, [⟨"s2", "b.ts", 2, "m2"⟩], 1, "b2", "f2"⟩).2.2
      (by simp)⟩

theorem foldl_if_count {α : Type} (P : α → Bool) :
    ∀ (l : List α) (a : ℕ),
      l.foldl (fun x c => if P c then x + 1 else x) a = a + l.countP P := by
  intro l
  induction l with
  | nil => intro a; simp
  | cons c cs ih =>
    intro a
    by_cases h : P c <;> simp [h, ih, List.countP_cons] <;> try ring

theorem foldl_nested_count (P : CommitReference → Bool) :
    ∀ (ps : List BugPattern) (a : ℕ),
      ps.foldl
        (fun acc p => p.commits.foldl (fun x c => if P c then x + 1 else x) acc) a =
        a + ((ps.map (fun p => p.commits)).flatten).countP P := by
  intro ps
  induction ps with
  | nil => intro a; simp
  | cons p ps ih =>
    intro a
    rw [List.foldl_cons, foldl_if_count, ih]
    simp [List.countP_append]
    omega

/-- Claim C5 counterexample: the code counts commit references by substring
containment of the scored path's basename, not by basename equality; for
path `util.ts` and a single reference to `src/myutil.ts` the code yields
bonus 1/2 while the claimed basename-equality reading yields 0. -/
theorem fileHistory_basename_counterexample :
    calculateFileHistoryFactor "util.ts"
        [⟨"i", "typescript", "r", "c", 8, [⟨"s", "src/myutil.ts", 1, "m"⟩], 1, "", ""⟩] = 1/2 ∧
    specBasenameHistoryBonus "util.ts"
        [⟨"i", "typescript", "r", "c", 8, [⟨"s", "src/myutil.ts", 1, "m"⟩], 1, "", ""⟩] = 0 ∧
    calculateFileHistoryFactor "util.ts"
        [⟨"i", "typescript", "r", "c", 8, [⟨"s", "src/myutil.ts", 1, "m"⟩], 1, "", ""⟩] ≠
      specBasenameHistoryBonus "util.ts"
        [⟨"i", "typescript", "r", "c", 8, [⟨"s", "src/myutil.ts", 1, "m"⟩], 1, "", ""⟩] := by
  have h1 : calculateFileHistoryFactor "util.ts"
      [⟨"i", "typescript", "r", "c", 8, [⟨"s", "src/myutil.ts", 1, "m"⟩], 1, "", ""⟩] =
        1/2 := by rfl
  have h2 : specBasenameHistoryBonus "util.ts"
      [⟨"i", "typescript", "r", "c", 8, [⟨"s", "src/myutil.ts", 1, "m"⟩], 1, "", ""⟩] =
        0 := by rfl
  refine ⟨h1, h2, ?_⟩
  rw [h1, h2]
  norm_num

theorem calculateFileHistoryFactor_eq (filePath : String) (patterns : List BugPattern) :
    calculateFileHistoryFactor filePath patterns =
      thresholdBonus
        (patterns.foldl
          (fun acc p =>
            p.commits.foldl
              (fun a c => if jsIncludes c.file (jsBasename filePath) then a + 1 else a) acc)
          0) := rfl

/-- Claim C5 (amended): the file-history bonus maps, through the ladder
(at least 5 gives 3/2, at least 3 gives 1, at least 1 gives 1/2, else 0),
the number of commit references across all stored patterns whose file path
contains the scored path's basename as a substring. -/
theorem fileHistory_substring_semantics (filePath : String) (patterns : List BugPattern) :
    calculateFileHistoryFactor filePath patterns =
      thresholdBonus (substrHistoryCount filePath patterns) := by
  rw [calculateFileHistoryFactor_eq, foldl_nested_count]
  rw [Nat.zero_add]
  rfl

/-- Claim C4 counterexample: a `+` line separated from a removal line only
by a hunk header still produces a candidate pair, because `@@` lines are
skipped with `continue` without resetting the removal flag; under the strict
reading (`+` immediately after the `-` block) no pair may arise here. -/
theorem diffPairs_strict_counterexample :
    pairsBF (extractPairsFromPatch "@@ -1 +1 @@\n-a\n@@ -2 +2 @@\n+b") = [("a", "b")] ∧
    specStrictPairs (jsSplitLines "@@ -1 +1 @@\n-a\n@@ -2 +2 @@\n+b") = [] ∧
    pairsBF (extractPairsFromPatch "@@ -1 +1 @@\n-a\n@@ -2 +2 @@\n+b") ≠
      specStrictPairs (jsSplitLines "@@ -1 +1 @@\n-a\n@@ -2 +2 @@\n+b") :=
  ⟨by decide, by decide, by decide⟩

theorem diffStep_specStep (st : DiffState) (s : Option String × List (String × String))
    (line : String) (h : C4Inv st s) : C4Inv (diffStep st line) (specAmendedStep s line) := by
  obtain ⟨hp, hflag⟩ := h
  by_cases h1 : jsStartsWith line "@@" = true
  · unfold diffStep specAmendedStep
    rw [if_pos h1, if_pos h1]
    cases hl : hunkStartLine line with
    | none => exact ⟨hp, hflag⟩
    | some n => exact ⟨hp, hflag⟩
  · by_cases h2 : (jsStartsWith line "-" && !jsStartsWith line "---") = true
    · unfold diffStep specAmendedStep
      rw [if_neg h1, if_pos h2, if_neg h1, if_pos h2]
      refine ⟨hp, rfl, by simp, by simp⟩
    · by_cases h3 : (jsStartsWith line "+" && !jsStartsWith line "+++") = true
      · unfold diffStep specAmendedStep
        rw [if_neg h1, if_neg h2, if_pos h3, if_neg h1, if_neg h2, if_pos h3]
        cases hs1 : s.1 with
        | some x =>
          simp only [hs1] at hflag
          obtain ⟨hb, hne, hlast⟩ := hflag
          rw [if_pos ⟨hb, List.length_pos.mpr hne⟩]
          refine ⟨?_, rfl⟩
          simp only [pairsBF, List.map_append, List.map_cons, List.map_nil] at hp ⊢
          rw [hlast, hp]
        | none =>
          simp only [hs1] at hflag
          rw [if_neg (fun hc => by rw [hflag] at hc; exact absurd hc.1 (by simp))]
          exact ⟨hp, rfl⟩
      · unfold diffStep specAmendedStep
        rw [if_neg h1, if_neg h2, if_neg h3, if_neg h1, if_neg h2, if_neg h3]
        exact ⟨hp, rfl⟩

theorem foldl_diff_spec (lines : List String) :
    ∀ (st : DiffState) (s : Option String × List (String × String)), C4Inv st s →
      C4Inv (lines.foldl diffStep st) (lines.foldl specAmendedStep s) := by
  induction lines with
  | nil => intro st s h; exact h
  | cons l ls ih => intro st s h; exact ih _ _ (diffStep_specStep st s l h)

/-- Claim C4 (amended): a candidate pair is produced exactly at a `+` line
(not `+++`) whose most recent preceding non-hunk-header line is a `-` line
(not `---`); hunk header `@@` lines do not reset the removal state, and the
pair's buggy side is the last buffered removed line (trimmed).  Hunks of
only added or only removed lines, with no removal still pending, produce no
pair. -/
theorem diffPairs_amended_semantics (patch : String) :
    pairsBF (extractPairsFromPatch patch) = specAmendedPairs (jsSplitLines patch) :=
  (foldl_diff_spec (jsSplitLines patch) initDiffState (none, []) ⟨rfl, rfl⟩).1

theorem analyzeBugPattern_shape (id b f lang sha msg fn : String) (ln : ℤ) (p : BugPattern)
    (h : analyzeBugPattern id b f lang sha msg fn ln = some p) :
    p.occurrence_count = 1 ∧ p.commits.length = 1 := by
  unfold analyzeBugPattern at h
  by_cases h1 : (jsTrim b == "" || jsTrim f == "") = true
  · rw [if_pos h1] at h
    exact absurd h (by simp)
  · rw [if_neg h1] at h
    by_cases h2 : (jsStartsWith (jsTrim b) "//" && jsStartsWith (jsTrim f) "//") = true
    · rw [if_pos h2] at h
      exact absurd h (by simp)
    · rw [if_neg h2] at h
      cases hr : runDetectors b f lang with
      | none =>
        rw [hr] at h
        exact absurd h (by simp)
      | some r =>
        rw [hr] at h
        have h' := Option.some.inj h
        subst h'
        exact ⟨rfl, rfl⟩

theorem fromDiff_shape (idGen : ℕ → String) (filename patch sha message : String)
    (p : BugPattern) (h : p ∈ extractPatternsFromDiff idGen filename patch sha message) :
    p.occurrence_count = 1 ∧ p.commits.length = 1 := by
  simp only [extractPatternsFromDiff, List.mem_filterMap] at h
  obtain ⟨ip, _, hp⟩ := h
  exact analyzeBugPattern_shape _ _ _ _ _ _ _ _ _ hp

theorem mapUpsert_inv (m : List (String × BugPattern)) (p : BugPattern)
    (hm : ∀ kv ∈ m, kv.2.occurrence_count = (kv.2.commits.length : ℤ))
    (hp1 : p.occurrence_count = 1) (hp2 : p.commits.length = 1) :
    ∀ kv ∈ mapUpsert m p, kv.2.occurrence_count = (kv.2.commits.length : ℤ) := by
  intro kv hkv
  unfold mapUpsert at hkv
  by_cases hany : (m.any fun kv => kv.1 == patternKey p) = true
  · rw [if_pos hany] at hkv
    rw [List.mem_map] at hkv
    obtain ⟨kv', hkv', heq⟩ := hkv
    by_cases hk : (kv'.1 == patternKey p) = true
    · rw [if_pos hk] at heq
      subst heq
      have hc := hm kv' hkv'
      dsimp only
      simp only [List.length_append, hp2, Nat.cast_add, Nat.cast_one]
      omega
    · rw [if_neg hk] at heq
      subst heq
      exact hm kv' hkv'
  · rw [if_neg hany] at hkv
    rcases List.mem_append.mp hkv with hin | hin
    · exact hm kv hin
    · simp only [List.mem_singleton] at hin
      subst hin
      simp [hp1, hp2]

theorem foldl_mapUpsert_inv :
    ∀ (ps : List BugPattern) (m : List (String × BugPattern)),
      (∀ q ∈ ps, q.occurrence_count = 1 ∧ q.commits.length = 1) →
      (∀ kv ∈ m, kv.2.occurrence_count = (kv.2.commits.length : ℤ)) →
      ∀ kv ∈ ps.foldl mapUpsert m, kv.2.occurrence_count = (kv.2.commits.length : ℤ) := by
  intro ps
  induction ps with
  | nil => intro m _ hm; exact hm
  | cons p ps ih =>
    intro m hps hm
    rw [List.foldl_cons]
    exact ih _ (fun q hq => hps q (by simp [hq]))
      (mapUpsert_inv m p hm (hps p (by simp)).1 (hps p (by simp)).2)

theorem foldl_files_inv (idGen : ℕ → String) (sha message : String) :
    ∀ (files : List GitFile) (m : List (String × BugPattern)),
      (∀ kv ∈ m, kv.2.occurrence_count = (kv.2.commits.length : ℤ)) →
      ∀ kv ∈ files.foldl
          (fun m file =>
            match file.patch with
            | none => m
            | some patch =>
              (extractPatternsFromDiff idGen file.filename patch sha message).foldl mapUpsert m)
          m,
        kv.2.occurrence_count = (kv.2.commits.length : ℤ) := by
  intro files
  induction files with
  | nil => intro m hm; exact hm
  | cons file files ih =>
    intro m hm
    rw [List.foldl_cons]
    apply ih
    cases hp : file.patch with
    | none =>
      simp only [hp]
      exact hm
    | some patch =>
      simp only [hp]
      exact foldl_mapUpsert_inv _ _
        (fun q hq => fromDiff_shape idGen file.filename patch sha message q hq) hm

theorem foldl_commits_inv (idGen : ℕ → String) :
    ∀ (commits : List GitCommit) (m : List (String × BugPattern)),
      (∀ kv ∈ m, kv.2.occurrence_count = (kv.2.commits.length : ℤ)) →
      ∀ kv ∈ commits.foldl
          (fun m commit =>
            match commit.files with
            | none => m
            | some files =>
              files.foldl
                (fun m file =>
                  match file.patch with
                  | none => m
                  | some patch =>
                    (extractPatternsFromDiff idGen file.filename patch commit.sha
                        commit.message).foldl mapUpsert m)
                m)
          m,
        kv.2.occurrence_count = (kv.2.commits.length : ℤ) := by
  intro commits
  induction commits with
  | nil => intro m hm; exact hm
  | cons commit commits ih =>
    intro m hm
    rw [List.foldl_cons]
    apply ih
    cases hf : commit.files with
    | none =>
      simp only [hf]
      exact hm
    | some files =>
      simp only [hf]
      exact foldl_files_inv idGen commit.sha commit.message files m hm

theorem mergeInto_inv (p : BugPattern) (hp : p.occurrence_count = (p.commits.length : ℤ)) :
    ∀ (store : List BugPattern),
      (∀ q ∈ store, q.occurrence_count = (q.commits.length : ℤ)) →
      ∀ q ∈ mergeInto store p, q.occurrence_count = (q.commits.length : ℤ) := by
  intro store
  induction store with
  | nil =>
    intro _ q hq
    simp only [mergeInto, List.mem_singleton] at hq
    subst hq
    exact hp
  | cons a as ih =>
    intro hs q hq
    unfold mergeInto at hq
    by_cases hk : sameKey a p = true
    · rw [if_pos hk] at hq
      rcases List.mem_cons.mp hq with h | h
      · subst h
        have ha := hs a (by simp)
        unfold mergePatterns
        dsimp only
        simp only [List.length_append, Nat.cast_add]
        omega
      · exact hs q (by simp [h])
    · rw [if_neg hk] at hq
      rcases List.mem_cons.mp hq with h | h
      · subst h
        exact hs q (by simp)
      · exact ih (fun r hr => hs r (by simp [hr])) q h

theorem addPatterns_inv :
    ∀ (ps store : List BugPattern),
      (∀ q ∈ store, q.occurrence_count = (q.commits.length : ℤ)) →
      (∀ q ∈ ps, q.occurrence_count = (q.commits.length : ℤ)) →
      ∀ q ∈ addPatterns store ps, q.occurrence_count = (q.commits.length : ℤ) := by
  intro ps
  induction ps with
  | nil => intro store hs _; exact hs
  | cons p ps ih =>
    intro store hs hps
    unfold addPatterns
    rw [List.foldl_cons]
    exact ih (mergeInto store p) (mergeInto_inv p (hps p (by simp)) store hs)
      (fun q hq => hps q (by simp [hq]))

/-- Claim C9: every pattern returned by `extractPatterns` has its occurrence
count equal to the length of its commit list, and `addPatterns` preserves
this equality for every stored pattern whenever both the stored and the
incoming patterns satisfy it. -/
theorem occurrence_count_matches_commits :
    (∀ (idGen : ℕ → String) (commits : List GitCommit) (p : BugPattern),
       p ∈ extractPatterns idGen commits → p.occurrence_count = (p.commits.length : ℤ)) ∧
    (∀ (store ps : List BugPattern),
       (∀ q ∈ store, q.occurrence_count = (q.commits.length : ℤ)) →
       (∀ q ∈ ps, q.occurrence_count = (q.commits.length : ℤ)) →
       ∀ q ∈ addPatterns store ps, q.occurrence_count = (q.commits.length : ℤ)) := by
  constructor
  · intro idGen commits p hp
    unfold extractPatterns at hp
    rw [List.mem_map] at hp
    obtain ⟨kv, hkv, hkvp⟩ := hp
    subst hkvp
    exact foldl_commits_inv idGen commits [] (by simp) kv hkv
  · intro store ps hs hps
    exact addPatterns_inv ps store hs hps

theorem occurrence_count_matches_commits_witness :
    (⟨"id0", "typescript", "\\bvar\\s+\\w+", "var_scoping", 4,
        [⟨"sha1", "a.ts", 1, "fix bug"⟩], 1, "var x = 1;", "let x = 1;"⟩ :
        BugPattern).occurrence_count =
      (((⟨"id0", "typescript", "\\bvar\\s+\\w+", "var_scoping", 4,
          [⟨"sha1", "a.ts", 1, "fix bug"⟩], 1, "var x = 1;", "let x = 1;"⟩ :
          BugPattern).commits.length : ℤ)) ∧
    (⟨"w", "typescript", "r2", "c2", 5,
        [⟨"s1", "a.ts", 1, "m1"⟩, ⟨"s2", "b.ts", 2, "m2"⟩], 2, "", ""⟩ :
        BugPattern).occurrence_count =
      (((⟨"w", "typescript", "r2", "c2", 5,
          [⟨"s1", "a.ts", 1, "m1"⟩, ⟨"s2", "b.ts", 2, "m2"⟩], 2, "", ""⟩ :
          BugPattern).commits.length : ℤ)) :=
  ⟨occurrence_count_matches_commits.1 (fun n => "id" ++ toString n)
      [⟨"sha1", "fix bug", some [⟨"a.ts", some "@@ -1 +1 @@\n-var x = 1;\n+let x = 1;"⟩]⟩]
      ⟨"id0", "typescript", "\\bvar\\s+\\w+", "var_scoping", 4,
        [⟨"sha1", "a.ts", 1, "fix bug"⟩], 1, "var x = 1;", "let x = 1;"⟩ (by decide),
   occurrence_count_matches_commits.2 []
      [⟨"w", "typescript", "r2", "c2", 5,
        [⟨"s1", "a.ts", 1, "m1"⟩, ⟨"s2", "b.ts", 2, "m2"⟩], 2, "", ""⟩]
      (by simp)
      (fun q hq => by
        rw [List.mem_singleton] at hq
        subst hq
        decide)
      ⟨"w", "typescript", "r2", "c2", 5,
        [⟨"s1", "a.ts", 1, "m1"⟩, ⟨"s2", "b.ts", 2, "m2"⟩], 2, "", ""⟩
      (by decide)⟩
